import Mathlib

/-!
Verification development for the rust-interfaces repository: the cross-platform
network-interface enumeration library.  The Rust sources (src/ffi/unix/mod.rs and
src/ffi/windows/mod.rs) are shallowly embedded below: pointer-linked OS structures
become Lean lists, nullable pointers become Option, machine integers become Nat
with explicit truncation where the source truncates, and the OS calls
(getifaddrs / GetAdaptersAddresses) become explicit oracle parameters.
-/

set_option maxRecDepth 4000

namespace RustInterfaces

/-! ## Cross-platform data model (src/lib.rs types used by both paths) -/

/-- Address-family classification of one reported binding
(enum Kind in the crate root). -/
inductive Kind
  | Ipv4
  | Ipv6
  | Link
  | Packet
  | Unknown
  deriving DecidableEq

/-- Four octets of std::net::Ipv4Addr, in dotted-decimal order. -/
structure Ipv4Addr where
  o0 : Nat
  o1 : Nat
  o2 : Nat
  o3 : Nat
  deriving DecidableEq

/-- Eight 16-bit groups of std::net::Ipv6Addr, in textual order. -/
structure Ipv6Addr where
  g0 : Nat
  g1 : Nat
  g2 : Nat
  g3 : Nat
  g4 : Nat
  g5 : Nat
  g6 : Nat
  g7 : Nat
  deriving DecidableEq

/-- std::net::IpAddr. -/
inductive IpAddr
  | V4 : Ipv4Addr → IpAddr
  | V6 : Ipv6Addr → IpAddr
  deriving DecidableEq

/-- std::net::SocketAddr: V4 carries (addr, port); V6 carries
(addr, port, flowinfo, scope_id). -/
inductive SocketAddr
  | V4 : Ipv4Addr → Nat → SocketAddr
  | V6 : Ipv6Addr → Nat → Nat → Nat → SocketAddr
  deriving DecidableEq

/-- std::net::SocketAddr::new(ip, port): the V6 constructor zeroes flowinfo and
scope_id (as the std library does). -/
def SocketAddr.new : IpAddr → Nat → SocketAddr
  | .V4 a, p => .V4 a p
  | .V6 a, p => .V6 a p 0 0

/-- enum NextHop in the crate root. -/
inductive NextHop
  | Broadcast : SocketAddr → NextHop
  | Destination : SocketAddr → NextHop
  deriving DecidableEq

/-- struct Interface in the crate root. -/
structure Interface where
  name : String
  kind : Kind
  addr : Option SocketAddr
  mask : Option SocketAddr
  hop : Option NextHop
  deriving DecidableEq

/-- std::io::ErrorKind, restricted to the kinds this crate constructs. -/
inductive IoErrorKind
  | AddrNotAvailable
  | InvalidInput
  | Other
  deriving DecidableEq

/-- std::io::Error as this crate builds it: a kind plus a message string. -/
structure IoError where
  kind : IoErrorKind
  msg : String
  deriving DecidableEq

end RustInterfaces

namespace Unix

open RustInterfaces

/-- nix::sys::socket::AddressFamily, restricted to the outcomes that matter to
this crate: the two internet families, the Linux packet family, the BSD link
family, and a stand-in for every other value that AddressFamily::from_i32
recognizes.  A raw tag that from_i32 does not recognize is modelled as
Option.none at the use sites. -/
inductive AddressFamily
  | Inet
  | Inet6
  | Packet
  | Link
  | OtherKnown
  deriving DecidableEq

/-- One OS sockaddr record as the Unix decoder reinterprets it.  The raw memory
is reinterpreted either as sockaddr_in (fields s_addr, sin_port) or as
sockaddr_in6 (fields s6_addr: 16 bytes, sin6_port) according to the family tag;
the record carries both views of its payload.  family = none models a raw
sa_family value on which AddressFamily::from_i32 returns None. -/
structure Sockaddr where
  family : Option AddressFamily
  s_addr : Nat
  sin_port : Nat
  s6_addr : List Nat
  sin6_port : Nat
  deriving DecidableEq

/-- nix_socketaddr_to_sockaddr (src/ffi/unix/mod.rs lines 87-130): decode one
nullable sockaddr pointer into Option<SocketAddr>.  A null pointer is none; an
unrecognized family tag propagates None through the question-mark operator; the
IPv4 arm extracts the four octets of s_addr with mask-and-shift (byte 0 is the
least-significant byte of the stored 32-bit value); the IPv6 arm builds the
eight groups as addr[0] as u16 .. addr[7] as u16, i.e. from the first eight
BYTES of s6_addr, each zero-extended; every other recognized family yields
None. -/
def nix_socketaddr_to_sockaddr (sa : Option Sockaddr) : Option SocketAddr :=
  match sa with
  | none => none
  | some sa =>
    match sa.family with
    | none => none
    | some .Inet =>
        let addr := sa.s_addr
        some (SocketAddr.new
          (.V4 ⟨(addr &&& 0x000000FF) >>> 0,
                (addr &&& 0x0000FF00) >>> 8,
                (addr &&& 0x00FF0000) >>> 16,
                (addr &&& 0xFF000000) >>> 24⟩)
          sa.sin_port)
    | some .Inet6 =>
        some (SocketAddr.new
          (.V6 ⟨sa.s6_addr.getD 0 0,
                sa.s6_addr.getD 1 0,
                sa.s6_addr.getD 2 0,
                sa.s6_addr.getD 3 0,
                sa.s6_addr.getD 4 0,
                sa.s6_addr.getD 5 0,
                sa.s6_addr.getD 6 0,
                sa.s6_addr.getD 7 0⟩)
          sa.sin6_port)
    | some _ => none

/-- Modelled from the spec: the IPv6 grouping rule the spec states for the
Decoder ("each byte pair read directly as one 16-bit group, no swap"): group i
is bytes 2i and 2i+1 of the 16-byte array, high byte first.  This matches what
std Ipv6Addr::from([u8; 16]) does on the Windows path; it is stated here only
to be compared with nix_socketaddr_to_sockaddr. -/
def spec_ipv6_groups (b : List Nat) : Ipv6Addr :=
  ⟨b.getD 0 0 * 256 + b.getD 1 0,
   b.getD 2 0 * 256 + b.getD 3 0,
   b.getD 4 0 * 256 + b.getD 5 0,
   b.getD 6 0 * 256 + b.getD 7 0,
   b.getD 8 0 * 256 + b.getD 9 0,
   b.getD 10 0 * 256 + b.getD 11 0,
   b.getD 12 0 * 256 + b.getD 13 0,
   b.getD 14 0 * 256 + b.getD 15 0⟩

/-- IFF_BROADCAST from the SIOCGIFFLAGS enum (src/ffi/unix/mod.rs line 32). -/
def IFF_BROADCAST : Nat := 0x2

/-- The two target-OS classes the crate compiles for: cfg(linux/android)
defines AF_PACKET and maps it to Kind::Packet; cfg(macos/ios/freebsd/openbsd/
netbsd) defines AF_LINK and maps it to Kind::Link.  Exactly one arm is compiled
into a binary, so the platform is a parameter of the walk. -/
inductive Platform
  | linux
  | bsd
  deriving DecidableEq

/-- The family-to-Kind match in ifaces (src/ffi/unix/mod.rs lines 158-172):
Inet and Inet6 map to Ipv4/Ipv6 on both platforms; Packet maps to Kind::Packet
only under cfg(linux/android) and Link to Kind::Link only under the BSD cfg;
every family not matched by a compiled arm falls to the wildcard
Some(Kind::Unknown). -/
def famToKind (p : Platform) (f : AddressFamily) : Kind :=
  match f with
  | .Inet => .Ipv4
  | .Inet6 => .Ipv6
  | .Packet => match p with
    | .linux => .Packet
    | .bsd => .Unknown
  | .Link => match p with
    | .linux => .Unknown
    | .bsd => .Link
  | .OtherKnown => .Unknown

/-- One node of the getifaddrs linked list (struct ifaddrs).  ifa_name holds
the result of String::from_utf8 on the name bytes (none = invalid UTF-8);
ifa_addr / ifa_netmask are nullable sockaddr pointers; ifa_ifu is the
broadcast/destination union: both accessors return the same data pointer, so
one nullable record models it. -/
structure Ifaddrs where
  ifa_name : Option String
  ifa_flags : Nat
  ifa_addr : Option Sockaddr
  ifa_netmask : Option Sockaddr
  ifa_ifu : Option Sockaddr
  deriving DecidableEq

/-- The loop body of ifaces (src/ffi/unix/mod.rs lines 139-204) as a recursive
walk.  Per node: a name that fails UTF-8 decoding or a null ifa_addr breaks the
loop (the tail is dropped); a raw family tag AddressFamily::from_i32 rejects
breaks the loop; otherwise the node decodes to an Interface, kept unless its
Kind is Unknown, and the walk advances to ifa_next. -/
def walkIfaddrs (p : Platform) : List Ifaddrs → List Interface
  | [] => []
  | item :: rest =>
    match item.ifa_name with
    | none => []
    | some name =>
      match item.ifa_addr with
      | none => []
      | some addrRec =>
        match addrRec.family with
        | none => []
        | some fam =>
          let kind := famToKind p fam
          let addr := nix_socketaddr_to_sockaddr item.ifa_addr
          let mask := nix_socketaddr_to_sockaddr item.ifa_netmask
          let hop :=
            if item.ifa_flags &&& IFF_BROADCAST = IFF_BROADCAST then
              (nix_socketaddr_to_sockaddr item.ifa_ifu).map NextHop.Broadcast
            else
              (nix_socketaddr_to_sockaddr item.ifa_ifu).map NextHop.Destination
          (if kind ≠ Kind.Unknown then [⟨name, kind, addr, mask, hop⟩] else [])
            ++ walkIfaddrs p rest

/-- ifaces (src/ffi/unix/mod.rs lines 133-210).  The getifaddrs OS call is an
oracle: its return status and the list it would populate are parameters.  A
zero status walks the list and returns Ok; any other status returns the generic
error.  (freeifaddrs releases OS memory and has no observable effect on the
returned value.) -/
def ifaces (p : Platform) (status : Nat) (head : List Ifaddrs) :
    Except IoError (List Interface) :=
  match status with
  | 0 => .ok (walkIfaddrs p head)
  | _ => .error ⟨.Other, "Oh, no ..."⟩

end Unix

namespace Windows

open RustInterfaces

/-! Winapi status and family constants (winapi::shared::winerror / ws2def). -/

def ERROR_SUCCESS : Nat := 0
def ERROR_NOT_ENOUGH_MEMORY : Nat := 8
def ERROR_INVALID_PARAMETER : Nat := 87
def ERROR_BUFFER_OVERFLOW : Nat := 111
def ERROR_NO_DATA : Nat := 232
def ERROR_ADDRESS_NOT_ASSOCIATED : Nat := 1228

def AF_INET : Nat := 2
def AF_INET6 : Nat := 23

/-- PREALLOC_ADAPTERS_LEN (src/ffi/windows/mod.rs line 30). -/
def PREALLOC_ADAPTERS_LEN : Nat := 15 * 1024

/-- IP_DAD_STATE (enum IpDadState, src/ffi/windows/mod.rs lines 211-217). -/
inductive IpDadState
  | IpDadStateInvalid
  | IpDadStateTentative
  | IpDadStateDuplicate
  | IpDadStateDeprecated
  | IpDadStatePreferred
  deriving DecidableEq

/-- The sockaddr behind a SOCKET_ADDRESS lpSockaddr pointer, carrying both the
SOCKADDR_IN view (s_addr) and the SOCKADDR_IN6 view (sin6_addr: 16 bytes,
sin6_port, sin6_flowinfo, sin6_scope_id) of its raw bytes, selected by
sa_family. -/
structure WinSockaddr where
  sa_family : Nat
  s_addr : Nat
  sin6_addr : List Nat
  sin6_port : Nat
  sin6_flowinfo : Nat
  sin6_scope_id : Nat
  deriving DecidableEq

/-- struct IpAdapterUnicastAddress, restricted to the fields
map_adapter_addresses reads.  The code dereferences address.lpSockaddr without
a null check, so the pointed-to record is not optional here. -/
structure IpAdapterUnicastAddress where
  length : Nat
  address : WinSockaddr
  dad_state : IpDadState
  deriving DecidableEq

/-- struct IpAdapterAddresses, restricted to the fields map_adapter_addresses
reads: the unicast-address chain (a Lean list stands for the next-linked
chain) and the XP-era ipv6_if_index field. -/
structure IpAdapterAddresses where
  first_unicast_address : List IpAdapterUnicastAddress
  ipv6_if_index : Nat
  deriving DecidableEq

/-- v4_socket_from_adapter (src/ffi/windows/mod.rs lines 252-268): reinterpret
the unicast record's sockaddr as SOCKADDR_IN and build a SocketAddrV4 with
port 0; each octet is (sin_addr >> k) as u8, i.e. shift then truncate to a
byte. -/
def v4_socket_from_adapter (unicast_addr : IpAdapterUnicastAddress) :
    Ipv4Addr × Nat :=
  let sin_addr := unicast_addr.address.s_addr
  (⟨(sin_addr >>> 0) % 256,
    (sin_addr >>> 8) % 256,
    (sin_addr >>> 16) % 256,
    (sin_addr >>> 24) % 256⟩, 0)

/-- std Ipv6Addr::From<[u8; 16]> as used by v6_socket_from_adapter: group i is
bytes 2i and 2i+1 in order, high byte first (no swap). -/
def ipv6_from_bytes (b : List Nat) : Ipv6Addr :=
  ⟨b.getD 0 0 * 256 + b.getD 1 0,
   b.getD 2 0 * 256 + b.getD 3 0,
   b.getD 4 0 * 256 + b.getD 5 0,
   b.getD 6 0 * 256 + b.getD 7 0,
   b.getD 8 0 * 256 + b.getD 9 0,
   b.getD 10 0 * 256 + b.getD 11 0,
   b.getD 12 0 * 256 + b.getD 13 0,
   b.getD 14 0 * 256 + b.getD 15 0⟩

/-- v6_socket_from_adapter (src/ffi/windows/mod.rs lines 270-285): reinterpret
the sockaddr as SOCKADDR_IN6 and build a SocketAddrV6 with port 0, the record's
flowinfo, and (at this stage) the record's own sin6_scope_id. -/
def v6_socket_from_adapter (unicast_addr : IpAdapterUnicastAddress) :
    SocketAddr :=
  .V6 (ipv6_from_bytes unicast_addr.address.sin6_addr) 0
    unicast_addr.address.sin6_flowinfo unicast_addr.address.sin6_scope_id

/-- SocketAddrV6::set_scope_id as used at line 369. -/
def set_scope_id (sa : SocketAddr) (scope : Nat) : SocketAddr :=
  match sa with
  | .V6 a p fl _ => .V6 a p fl scope
  | v4 => v4

/-- The inner loop body of map_adapter_addresses (src/ffi/windows/mod.rs lines
347-382) for one unicast record under a given owning adapter's ipv6_if_index:
a Deprecated dad_state produces nothing; a zero length produces nothing; an
AF_INET family produces an Ipv4 Interface with empty name, decoded addr, no
mask, no hop; an AF_INET6 family produces an Ipv6 Interface whose scope id is
overwritten with the adapter's ipv6_if_index; any other family produces
nothing. -/
def mapUnicast (ipv6_if_index : Nat) (u : IpAdapterUnicastAddress) :
    Option Interface :=
  match u.dad_state with
  | .IpDadStateDeprecated => none
  | _ =>
    match u.length with
    | 0 => none
    | _ + 1 =>
      if u.address.sa_family = AF_INET then
        some ⟨"", .Ipv4,
          some (.V4 (v4_socket_from_adapter u).1 (v4_socket_from_adapter u).2),
          none, none⟩
      else if u.address.sa_family = AF_INET6 then
        some ⟨"", .Ipv6,
          some (set_scope_id (v6_socket_from_adapter u) ipv6_if_index),
          none, none⟩
      else
        none

/-- The inner loop of map_adapter_addresses over one adapter's unicast-address
chain, pushing each produced Interface in order. -/
def mapUnicastList (ipv6_if_index : Nat) :
    List IpAdapterUnicastAddress → List Interface
  | [] => []
  | u :: rest =>
    match mapUnicast ipv6_if_index u with
    | none => mapUnicastList ipv6_if_index rest
    | some i => i :: mapUnicastList ipv6_if_index rest

/-- map_adapter_addresses (src/ffi/windows/mod.rs lines 327-390): the outer
loop over the adapter chain, concatenating each adapter's unicast results into
one vector. -/
def map_adapter_addresses : List IpAdapterAddresses → List Interface
  | [] => []
  | a :: rest =>
    mapUnicastList a.ipv6_if_index a.first_unicast_address
      ++ map_adapter_addresses rest

/-- Vec::reserve_exact(additional) on a vector with the given length and
capacity: afterwards the capacity is at least length + additional, and it never
shrinks. -/
def reserve_exact (cap len additional : Nat) : Nat :=
  max cap (len + additional)

/-- The GetAdaptersAddresses OS call as an oracle: from the caller's buffer
capacity (passed via the size pointer) to the returned status code and the
value the OS wrote back through the size pointer (the required size when the
buffer was too small). -/
def OsCall : Type := Nat → Nat × Nat

/-- local_ifaces_with_buffer (src/ffi/windows/mod.rs lines 287-325): call
GetAdaptersAddresses with the buffer's capacity; map SUCCESS to Ok and each
failing status to its io::Error; on ERROR_BUFFER_OVERFLOW reserve the reported
required size (the buffer length is 0: nothing was ever pushed) and recurse.
The Rust recursion is unbounded, so the embedding takes a fuel argument that
every theorem instantiates with enough fuel; exhausted fuel is a designated
error that no theorem relies on. -/
def local_ifaces_with_buffer (os : OsCall) : Nat → Nat → Except IoError Unit
  | 0, _ => .error ⟨.Other, "fuel exhausted"⟩
  | fuel + 1, cap =>
    let ret := os cap
    let ret_code := ret.1
    let length := ret.2
    if ret_code = ERROR_SUCCESS then
      .ok ()
    else if ret_code = ERROR_ADDRESS_NOT_ASSOCIATED then
      .error ⟨.AddrNotAvailable,
        "An address has not yet been associated with the network endpoint."⟩
    else if ret_code = ERROR_BUFFER_OVERFLOW then
      local_ifaces_with_buffer os fuel (reserve_exact cap 0 length)
    else if ret_code = ERROR_INVALID_PARAMETER then
      .error ⟨.InvalidInput, "One of the parameters is invalid."⟩
    else if ret_code = ERROR_NOT_ENOUGH_MEMORY then
      .error ⟨.Other,
        "Insufficient memory resources are available to complete the operation."⟩
    else if ret_code = ERROR_NO_DATA then
      .error ⟨.AddrNotAvailable,
        "No addresses were found for the requested parameters."⟩
    else
      .error ⟨.Other, "Some Other Error Occured."⟩

/-- ifaces (src/ffi/windows/mod.rs lines 393-403): allocate the preallocated
buffer, run the acquisition, and on success walk the adapter chain the buffer
holds (a parameter here); every acquisition failure is replaced by the single
generic error. -/
def ifaces (os : OsCall) (adapters : List IpAdapterAddresses) (fuel : Nat) :
    Except IoError (List Interface) :=
  match local_ifaces_with_buffer os fuel PREALLOC_ADAPTERS_LEN with
  | .ok _ => .ok (map_adapter_addresses adapters)
  | .error _ => .error ⟨.Other, "Oh, no ..."⟩

end Windows

/-! ## Verification -/

open RustInterfaces

/-- Arithmetic helper: masking with a byte mask shifted to position k and
shifting back extracts byte k/8 of x. -/
theorem mask_shift_octet (x k : Nat) :
    (x &&& (255 <<< k)) >>> k = x / 2 ^ k % 256 := by
  have h1 : (x &&& (255 <<< k)) >>> k = (x >>> k) &&& 255 := by
    apply Nat.eq_of_testBit_eq
    intro i
    simp [Nat.testBit_and, Nat.testBit_shiftRight, Nat.testBit_shiftLeft,
      Nat.le_add_right, Nat.add_sub_cancel_left, Bool.and_comm, Bool.and_assoc]
  have h2 : (x >>> k) &&& 255 = (x >>> k) % 256 := by
    have h255 : (255 : Nat) = 2 ^ 8 - 1 := by norm_num
    rw [h255, Nat.and_pow_two_sub_one_eq_mod]
  rw [h1, h2, Nat.shiftRight_eq_div_pow]

/-- Claim C4: for every IPv4 record on either platform whose 32-bit address
value stores bytes [a, b, c, d] with byte 0 least significant, the decoder
produces the dotted-decimal address a.b.c.d: byte 0 of the stored value becomes
the first octet, byte 1 the second, byte 2 the third, byte 3 the fourth. -/
theorem ipv4_decode_little_endian_octets (a b c d : Nat)
    (ha : a < 256) (hb : b < 256) (hc : c < 256) (hd : d < 256) :
    (∀ sa : Unix.Sockaddr, sa.family = some Unix.AddressFamily.Inet →
      sa.s_addr = a + 256 * b + 65536 * c + 16777216 * d →
      Unix.nix_socketaddr_to_sockaddr (some sa) =
        some (SocketAddr.V4 ⟨a, b, c, d⟩ sa.sin_port)) ∧
    (∀ u : Windows.IpAdapterUnicastAddress,
      u.address.s_addr = a + 256 * b + 65536 * c + 16777216 * d →
      Windows.v4_socket_from_adapter u = (⟨a, b, c, d⟩, 0)) := by
  constructor
  · intro sa hfam hval
    obtain ⟨fam, s, port, l6, p6⟩ := sa
    simp only at hfam hval
    subst hfam hval
    simp only [Unix.nix_socketaddr_to_sockaddr, SocketAddr.new,
      Nat.shiftRight_zero]
    rw [show (65280 : Nat) = 255 <<< 8 from by norm_num [Nat.shiftLeft_eq],
      show (16711680 : Nat) = 255 <<< 16 from by norm_num [Nat.shiftLeft_eq],
      show (4278190080 : Nat) = 255 <<< 24 from by norm_num [Nat.shiftLeft_eq],
      mask_shift_octet, mask_shift_octet, mask_shift_octet,
      show (255 : Nat) = 2 ^ 8 - 1 from by norm_num,
      Nat.and_pow_two_sub_one_eq_mod]
    norm_num
    omega
  · intro u hval
    simp only [Windows.v4_socket_from_adapter, hval, Nat.shiftRight_eq_div_pow]
    norm_num
    omega

/-- Witness for C4: 127.0.0.1 stored little-endian as 0x0100007F. -/
theorem ipv4_decode_little_endian_octets_witness :
    Unix.nix_socketaddr_to_sockaddr
        (some ⟨some Unix.AddressFamily.Inet, 127 + 256 * 0 + 65536 * 0 + 16777216 * 1,
          0, [], 0⟩) =
      some (SocketAddr.V4 ⟨127, 0, 0, 1⟩ 0) ∧
    Windows.v4_socket_from_adapter ⟨32, ⟨2, 127 + 256 * 0 + 65536 * 0 + 16777216 * 1,
        [], 0, 0, 0⟩, .IpDadStatePreferred⟩ = (⟨127, 0, 0, 1⟩, 0) := by
  refine ⟨?_, ?_⟩
  · exact (ipv4_decode_little_endian_octets 127 0 0 1 (by decide) (by decide)
      (by decide) (by decide)).1 _ rfl rfl
  · exact (ipv4_decode_little_endian_octets 127 0 0 1 (by decide) (by decide)
      (by decide) (by decide)).2 _ rfl

/-- Helper: a node whose name fails UTF-8 decoding or whose primary address
pointer is null truncates the walk there, whatever came before and after. -/
theorem walkIfaddrs_append_stop (p : Unix.Platform) (node : Unix.Ifaddrs)
    (rest : List Unix.Ifaddrs)
    (h : node.ifa_name = none ∨ node.ifa_addr = none) :
    ∀ pre : List Unix.Ifaddrs,
      Unix.walkIfaddrs p (pre ++ node :: rest) = Unix.walkIfaddrs p pre := by
  intro pre
  induction pre with
  | nil =>
    rcases h with h | h
    · simp [Unix.walkIfaddrs, h]
    · cases hn : node.ifa_name with
      | none => simp [Unix.walkIfaddrs, hn]
      | some name => simp [Unix.walkIfaddrs, hn, h]
  | cons x xs ih =>
    cases hx : x.ifa_name with
    | none => simp [Unix.walkIfaddrs, hx]
    | some name =>
      cases haddr : x.ifa_addr with
      | none => simp [Unix.walkIfaddrs, hx, haddr]
      | some r =>
        cases hfam : r.family with
        | none => simp [Unix.walkIfaddrs, hx, haddr, hfam]
        | some fam => simp [Unix.walkIfaddrs, hx, haddr, hfam, ih]

/-- Claim C3: on the Unix path, for every node whose name field fails text
decoding or whose primary address pointer is null, the walk stops at that node
(the tail is never examined) and the interfaces accumulated from the earlier
nodes are returned as a success value, not as an error. -/
theorem unix_walk_early_stop_success (p : Unix.Platform)
    (pre : List Unix.Ifaddrs) (node : Unix.Ifaddrs) (rest : List Unix.Ifaddrs)
    (h : node.ifa_name = none ∨ node.ifa_addr = none) :
    Unix.ifaces p 0 (pre ++ node :: rest) =
      .ok (Unix.walkIfaddrs p pre) := by
  show Except.ok (Unix.walkIfaddrs p (pre ++ node :: rest)) = _
  rw [walkIfaddrs_append_stop p node rest h pre]

/-- Witness for C3: one well-formed loopback node, then a node with an
undecodable name, then a further node; the walk returns only the loopback
interface, as a success. -/
theorem unix_walk_early_stop_success_witness :
    ((⟨none, 0, some ⟨some Unix.AddressFamily.Inet, 0, 0, [], 0⟩, none, none⟩ :
        Unix.Ifaddrs).ifa_name = none ∨
      (⟨none, 0, some ⟨some Unix.AddressFamily.Inet, 0, 0, [], 0⟩, none, none⟩ :
        Unix.Ifaddrs).ifa_addr = none) ∧
    Unix.ifaces Unix.Platform.linux 0
        ([⟨some "lo", 0, some ⟨some Unix.AddressFamily.Inet, 16777343, 0, [], 0⟩,
            none, none⟩] ++
          ⟨none, 0, some ⟨some Unix.AddressFamily.Inet, 0, 0, [], 0⟩, none, none⟩ ::
          [⟨some "eth0", 0, some ⟨some Unix.AddressFamily.Inet, 0, 0, [], 0⟩,
            none, none⟩]) =
      .ok (Unix.walkIfaddrs Unix.Platform.linux
        [⟨some "lo", 0, some ⟨some Unix.AddressFamily.Inet, 16777343, 0, [], 0⟩,
          none, none⟩]) :=
  ⟨Or.inl rfl, unix_walk_early_stop_success _ _ _ _ (Or.inl rfl)⟩

/-- Helper: every Interface the Unix walk emits comes from some node of the
list, with its fields assembled exactly as the loop body assembles them. -/
theorem walkIfaddrs_mem_characterize (p : Unix.Platform)
    (l : List Unix.Ifaddrs) (iface : Interface)
    (hmem : iface ∈ Unix.walkIfaddrs p l) :
    ∃ node ∈ l, ∃ name r fam,
      node.ifa_name = some name ∧ node.ifa_addr = some r ∧
      r.family = some fam ∧ Unix.famToKind p fam ≠ Kind.Unknown ∧
      iface = ⟨name, Unix.famToKind p fam,
        Unix.nix_socketaddr_to_sockaddr node.ifa_addr,
        Unix.nix_socketaddr_to_sockaddr node.ifa_netmask,
        if node.ifa_flags &&& Unix.IFF_BROADCAST = Unix.IFF_BROADCAST then
          (Unix.nix_socketaddr_to_sockaddr node.ifa_ifu).map NextHop.Broadcast
        else
          (Unix.nix_socketaddr_to_sockaddr node.ifa_ifu).map
            NextHop.Destination⟩ := by
  induction l with
  | nil => simp [Unix.walkIfaddrs] at hmem
  | cons x xs ih =>
    cases hx : x.ifa_name with
    | none => simp [Unix.walkIfaddrs, hx] at hmem
    | some name =>
      cases haddr : x.ifa_addr with
      | none => simp [Unix.walkIfaddrs, hx, haddr] at hmem
      | some r =>
        cases hfam : r.family with
        | none => simp [Unix.walkIfaddrs, hx, haddr, hfam] at hmem
        | some fam =>
          simp only [Unix.walkIfaddrs, hx, haddr, hfam,
            List.mem_append] at hmem
          rcases hmem with hmem | hmem
          · by_cases hk : Unix.famToKind p fam ≠ Kind.Unknown
            · simp only [if_pos hk, List.mem_singleton] at hmem
              exact ⟨x, List.mem_cons_self x xs, name, r, fam, hx, haddr, hfam,
                hk, by rw [hmem, haddr]⟩
            · simp [if_neg hk] at hmem
          · obtain ⟨node, hnode, rest⟩ := ih hmem
            exact ⟨node, List.mem_cons_of_mem x hnode, rest⟩

/-- Claim C5: the sequence returned successfully by the Unix walk contains no
Interface whose kind is Unknown, and a node mapped to Kind::Unknown is dropped
without stopping the walk. -/
theorem unix_walk_no_unknown_kind :
    (∀ (p : Unix.Platform) (status : Nat) (head : List Unix.Ifaddrs)
        (out : List Interface) (iface : Interface),
      Unix.ifaces p status head = .ok out → iface ∈ out →
      iface.kind ≠ Kind.Unknown) ∧
    (∀ (p : Unix.Platform) (node : Unix.Ifaddrs) (rest : List Unix.Ifaddrs)
        (name : String) (r : Unix.Sockaddr) (fam : Unix.AddressFamily),
      node.ifa_name = some name → node.ifa_addr = some r →
      r.family = some fam → Unix.famToKind p fam = Kind.Unknown →
      Unix.walkIfaddrs p (node :: rest) = Unix.walkIfaddrs p rest) := by
  constructor
  · intro p status head out iface hok hmem
    have hout : out = Unix.walkIfaddrs p head := by
      cases status with
      | zero =>
        simp only [Unix.ifaces] at hok
        exact (Except.ok.injEq _ _).mp hok.symm |>.symm ▸ by
          cases hok; rfl
      | succ n => simp [Unix.ifaces] at hok
    subst hout
    obtain ⟨node, _, name, r, fam, _, _, _, hk, hif⟩ :=
      walkIfaddrs_mem_characterize p head iface hmem
    rw [hif]
    exact hk
  · intro p node rest name r fam hn haddr hfam hk
    simp [Unix.walkIfaddrs, hn, haddr, hfam, hk]

/-- Witness for C5: a linux walk over one packet node and one node of a
BSD-only link family (Unknown on linux); the output is the packet interface
alone, no Unknown kind appears, and dropping the Unknown node does not stop
the walk. -/
theorem unix_walk_no_unknown_kind_witness :
    (⟨"lo", Kind.Packet, none, none, none⟩ : Interface).kind ≠ Kind.Unknown ∧
    Unix.walkIfaddrs Unix.Platform.linux
        (⟨some "en0", 0, some ⟨some Unix.AddressFamily.Link, 0, 0, [], 0⟩,
            none, none⟩ ::
          [⟨some "lo", 0, some ⟨some Unix.AddressFamily.Packet, 0, 0, [], 0⟩,
            none, none⟩]) =
      Unix.walkIfaddrs Unix.Platform.linux
        [⟨some "lo", 0, some ⟨some Unix.AddressFamily.Packet, 0, 0, [], 0⟩,
          none, none⟩] := by
  constructor
  · exact unix_walk_no_unknown_kind.1 Unix.Platform.linux 0
      [⟨some "lo", 0, some ⟨some Unix.AddressFamily.Packet, 0, 0, [], 0⟩,
        none, none⟩]
      (Unix.walkIfaddrs Unix.Platform.linux
        [⟨some "lo", 0, some ⟨some Unix.AddressFamily.Packet, 0, 0, [], 0⟩,
          none, none⟩])
      ⟨"lo", Kind.Packet, none, none, none⟩ rfl (by decide)
  · exact unix_walk_no_unknown_kind.2 Unix.Platform.linux _ _ "en0"
      ⟨some Unix.AddressFamily.Link, 0, 0, [], 0⟩ Unix.AddressFamily.Link
      rfl rfl rfl rfl

/-- Claim C9: every node appended by the Unix walk carries as hop the decoded
broadcast union member wrapped as NextHop::Broadcast when the broadcast-capable
flag is set in the node's flags bitmask, and the decoded destination member
wrapped as NextHop::Destination otherwise; the hop is absent whenever the
selected union member's pointer is null. -/
theorem unix_hop_selection (p : Unix.Platform) (nodes : List Unix.Ifaddrs)
    (iface : Interface) (hmem : iface ∈ Unix.walkIfaddrs p nodes) :
    ∃ node ∈ nodes,
      iface.hop =
        (if node.ifa_flags &&& Unix.IFF_BROADCAST = Unix.IFF_BROADCAST then
          (Unix.nix_socketaddr_to_sockaddr node.ifa_ifu).map NextHop.Broadcast
        else
          (Unix.nix_socketaddr_to_sockaddr node.ifa_ifu).map
            NextHop.Destination) ∧
      (node.ifa_ifu = none → iface.hop = none) := by
  obtain ⟨node, hnode, name, r, fam, hn, haddr, hfam, hk, hif⟩ :=
    walkIfaddrs_mem_characterize p nodes iface hmem
  refine ⟨node, hnode, by rw [hif], ?_⟩
  intro hnull
  rw [hif]
  simp [Unix.nix_socketaddr_to_sockaddr, hnull]

/-- Witness for C9: a broadcast-capable loopback node whose union member holds
127.255.255.255; the emitted interface's hop is
Broadcast(127.255.255.255:0). -/
theorem unix_hop_selection_witness :
    ∃ node ∈ [(⟨some "lo", 2, some ⟨some Unix.AddressFamily.Inet, 16777343, 0, [], 0⟩,
        none, some ⟨some Unix.AddressFamily.Inet, 4294967167, 0, [], 0⟩⟩ :
        Unix.Ifaddrs)],
      (⟨"lo", Kind.Ipv4,
        some (SocketAddr.V4 ⟨127, 0, 0, 1⟩ 0),
        none,
        some (NextHop.Broadcast (SocketAddr.V4 ⟨127, 255, 255, 255⟩ 0))⟩ :
          Interface).hop =
        (if node.ifa_flags &&& Unix.IFF_BROADCAST = Unix.IFF_BROADCAST then
          (Unix.nix_socketaddr_to_sockaddr node.ifa_ifu).map NextHop.Broadcast
        else
          (Unix.nix_socketaddr_to_sockaddr node.ifa_ifu).map
            NextHop.Destination) ∧
      (node.ifa_ifu = none →
        (⟨"lo", Kind.Ipv4,
          some (SocketAddr.V4 ⟨127, 0, 0, 1⟩ 0),
          none,
          some (NextHop.Broadcast (SocketAddr.V4 ⟨127, 255, 255, 255⟩ 0))⟩ :
            Interface).hop = none) :=
  unix_hop_selection Unix.Platform.linux _ _ (by decide)

/-- Claim C10: every Interface the Unix walk returns with kind Link or kind
Packet has addr = None, because the decoder yields None for every family other
than IPv4 and IPv6 even on a non-null pointer; likewise the decoder yields
None for a netmask record carrying one of those link-layer families, so mask
is None there too. -/
theorem unix_link_packet_addr_none :
    (∀ (p : Unix.Platform) (nodes : List Unix.Ifaddrs) (iface : Interface),
      iface ∈ Unix.walkIfaddrs p nodes →
      iface.kind = Kind.Link ∨ iface.kind = Kind.Packet →
      iface.addr = none) ∧
    (∀ sa : Unix.Sockaddr,
      sa.family = some Unix.AddressFamily.Packet ∨
        sa.family = some Unix.AddressFamily.Link →
      Unix.nix_socketaddr_to_sockaddr (some sa) = none) := by
  constructor
  · intro p nodes iface hmem hk
    obtain ⟨node, hnode, name, r, fam, hn, haddr, hfam, hne, hif⟩ :=
      walkIfaddrs_mem_characterize p nodes iface hmem
    rw [hif] at hk ⊢
    simp only [haddr] at hk ⊢
    cases fam <;> cases p <;>
      simp_all [Unix.famToKind, Unix.nix_socketaddr_to_sockaddr]
  · intro sa hfam
    rcases hfam with h | h <;> simp [Unix.nix_socketaddr_to_sockaddr, h]

/-- Witness for C10: a BSD link-layer node with a non-null address and a
link-family netmask record; the emitted Link interface has no addr, and the
decoder returns none on the link-family netmask record. -/
theorem unix_link_packet_addr_none_witness :
    (⟨"en0", Kind.Link, none, none, none⟩ : Interface).addr = none ∧
    Unix.nix_socketaddr_to_sockaddr
        (some ⟨some Unix.AddressFamily.Link, 7, 7, [1, 2], 3⟩) = none := by
  constructor
  · exact unix_link_packet_addr_none.1 Unix.Platform.bsd
      [⟨some "en0", 0, some ⟨some Unix.AddressFamily.Link, 7, 7, [1, 2], 3⟩,
        some ⟨some Unix.AddressFamily.Link, 7, 7, [1, 2], 3⟩, none⟩]
      ⟨"en0", Kind.Link, none, none, none⟩ (by decide) (Or.inl rfl)
  · exact unix_link_packet_addr_none.2
      ⟨some Unix.AddressFamily.Link, 7, 7, [1, 2], 3⟩ (Or.inr rfl)

/-- Claim C6: a unicast-address record whose dad_state is Deprecated produces
no Interface, whatever its address value, and the inner walk continues with
the next record. -/
theorem windows_deprecated_record_skipped (idx : Nat)
    (u : Windows.IpAdapterUnicastAddress)
    (rest : List Windows.IpAdapterUnicastAddress)
    (h : u.dad_state = Windows.IpDadState.IpDadStateDeprecated) :
    Windows.mapUnicast idx u = none ∧
    Windows.mapUnicastList idx (u :: rest) =
      Windows.mapUnicastList idx rest := by
  have h1 : Windows.mapUnicast idx u = none := by
    simp [Windows.mapUnicast, h]
  exact ⟨h1, by simp [Windows.mapUnicastList, h1]⟩

/-- Witness for C6 (spec scenario D): one Deprecated unicast IPv4 record yields
nothing and the walk proceeds past it. -/
theorem windows_deprecated_record_skipped_witness :
    (⟨64, ⟨2, 16777343, [], 0, 0, 0⟩,
        Windows.IpDadState.IpDadStateDeprecated⟩ :
      Windows.IpAdapterUnicastAddress).dad_state =
        Windows.IpDadState.IpDadStateDeprecated ∧
    Windows.mapUnicast 1
        ⟨64, ⟨2, 16777343, [], 0, 0, 0⟩,
          Windows.IpDadState.IpDadStateDeprecated⟩ = none ∧
    Windows.mapUnicastList 1
        (⟨64, ⟨2, 16777343, [], 0, 0, 0⟩,
            Windows.IpDadState.IpDadStateDeprecated⟩ ::
          [⟨64, ⟨2, 16777343, [], 0, 0, 0⟩,
            Windows.IpDadState.IpDadStatePreferred⟩]) =
      Windows.mapUnicastList 1
        [⟨64, ⟨2, 16777343, [], 0, 0, 0⟩,
          Windows.IpDadState.IpDadStatePreferred⟩] :=
  ⟨rfl, windows_deprecated_record_skipped 1 _ _ rfl⟩

/-- Helper: every Interface produced by the inner unicast walk comes from one
record of the chain through mapUnicast. -/
theorem mapUnicastList_mem (idx : Nat)
    (l : List Windows.IpAdapterUnicastAddress) (iface : Interface)
    (h : iface ∈ Windows.mapUnicastList idx l) :
    ∃ u ∈ l, Windows.mapUnicast idx u = some iface := by
  induction l with
  | nil => simp [Windows.mapUnicastList] at h
  | cons x xs ih =>
    cases hx : Windows.mapUnicast idx x with
    | none =>
      simp only [Windows.mapUnicastList, hx] at h
      obtain ⟨u, hu, he⟩ := ih h
      exact ⟨u, List.mem_cons_of_mem x hu, he⟩
    | some i =>
      simp only [Windows.mapUnicastList, hx, List.mem_cons] at h
      rcases h with h | h
      · exact ⟨x, List.mem_cons_self x xs, by rw [hx, h]⟩
      · obtain ⟨u, hu, he⟩ := ih h
        exact ⟨u, List.mem_cons_of_mem x hu, he⟩

/-- Helper: every Interface produced by the adapter walk comes from one
unicast record of one adapter of the chain. -/
theorem map_adapter_addresses_mem (l : List Windows.IpAdapterAddresses)
    (iface : Interface) (h : iface ∈ Windows.map_adapter_addresses l) :
    ∃ a ∈ l, ∃ u ∈ a.first_unicast_address,
      Windows.mapUnicast a.ipv6_if_index u = some iface := by
  induction l with
  | nil => simp [Windows.map_adapter_addresses] at h
  | cons a rest ih =>
    simp only [Windows.map_adapter_addresses, List.mem_append] at h
    rcases h with h | h
    · obtain ⟨u, hu, he⟩ := mapUnicastList_mem _ _ _ h
      exact ⟨a, List.mem_cons_self a rest, u, hu, he⟩
    · obtain ⟨a2, ha2, hrest⟩ := ih h
      exact ⟨a2, List.mem_cons_of_mem a ha2, hrest⟩

/-- Claim C7: every IPv6 Interface the Windows walk produces carries as scope
id the owning adapter's ipv6_if_index field, never the scope value the unicast
record itself carries; this holds for all IPv6 interfaces, not only link-local
ones. -/
theorem windows_ipv6_scope_from_adapter
    (adapters : List Windows.IpAdapterAddresses) (iface : Interface)
    (hmem : iface ∈ Windows.map_adapter_addresses adapters)
    (hk : iface.kind = Kind.Ipv6) :
    ∃ a ∈ adapters, ∃ u ∈ a.first_unicast_address,
      iface.addr = some (SocketAddr.V6
        (Windows.ipv6_from_bytes u.address.sin6_addr) 0
        u.address.sin6_flowinfo a.ipv6_if_index) := by
  obtain ⟨a, ha, u, hu, he⟩ := map_adapter_addresses_mem adapters iface hmem
  refine ⟨a, ha, u, hu, ?_⟩
  unfold Windows.mapUnicast at he
  split at he
  · simp at he
  · split at he
    · simp at he
    · split_ifs at he with h4 h6
      · injection he with he'
        rw [← he'] at hk
        simp at hk
      · injection he with he'
        rw [← he']
        simp [Windows.set_scope_id, Windows.v6_socket_from_adapter]

/-- Witness for C7 (spec scenario C): one adapter with ipv6_if_index = 5 and
one Preferred unicast IPv6 record fe80::1; the produced interface's scope id
is 5. -/
theorem windows_ipv6_scope_from_adapter_witness :
    ∃ a ∈ [(⟨[⟨56, ⟨23, 0, [0xfe, 0x80, 0, 0, 0, 0, 0, 0, 0, 0, 0, 0, 0, 0, 0, 1],
          0, 0, 77⟩, Windows.IpDadState.IpDadStatePreferred⟩], 5⟩ :
        Windows.IpAdapterAddresses)],
      ∃ u ∈ a.first_unicast_address,
        (⟨"", Kind.Ipv6,
          some (SocketAddr.V6 ⟨65152, 0, 0, 0, 0, 0, 0, 1⟩ 0 0 5),
          none, none⟩ : Interface).addr =
          some (SocketAddr.V6
            (Windows.ipv6_from_bytes u.address.sin6_addr) 0
            u.address.sin6_flowinfo a.ipv6_if_index) :=
  windows_ipv6_scope_from_adapter _ _ (by decide) rfl

/-- Claim C8: when the sizing call reports buffer-too-small with required size
R, the buffer is grown to capacity at least R and the call retried
unconditionally; the acquisition then terminates with success provided every
call with buffer capacity at least R succeeds. -/
theorem windows_buffer_grow_retry_succeeds (os : Windows.OsCall)
    (cap R fuel : Nat)
    (h1 : os cap = (Windows.ERROR_BUFFER_OVERFLOW, R))
    (h2 : ∀ c, R ≤ c → (os c).1 = Windows.ERROR_SUCCESS) :
    Windows.local_ifaces_with_buffer os (fuel + 2) cap =
      Windows.local_ifaces_with_buffer os (fuel + 1)
        (Windows.reserve_exact cap 0 R) ∧
    R ≤ Windows.reserve_exact cap 0 R ∧
    Windows.local_ifaces_with_buffer os (fuel + 2) cap = .ok () := by
  have hR : R ≤ Windows.reserve_exact cap 0 R := by
    simp [Windows.reserve_exact]
  have hstep : Windows.local_ifaces_with_buffer os (fuel + 2) cap =
      Windows.local_ifaces_with_buffer os (fuel + 1)
        (Windows.reserve_exact cap 0 R) := by
    conv_lhs => rw [Windows.local_ifaces_with_buffer]
    simp [h1, Windows.ERROR_SUCCESS, Windows.ERROR_ADDRESS_NOT_ASSOCIATED,
      Windows.ERROR_BUFFER_OVERFLOW]
  have hok : Windows.local_ifaces_with_buffer os (fuel + 1)
      (Windows.reserve_exact cap 0 R) = .ok () := by
    have hsucc := h2 (Windows.reserve_exact cap 0 R) hR
    conv_lhs => rw [Windows.local_ifaces_with_buffer]
    simp [hsucc, Windows.ERROR_SUCCESS]
  exact ⟨hstep, hR, hstep.trans hok⟩

/-- Witness for C8: an OS that reports overflow with required size 5 below
capacity 5 and succeeds from capacity 5 on; starting from capacity 1 the
acquisition succeeds. -/
theorem windows_buffer_grow_retry_succeeds_witness :
    Windows.local_ifaces_with_buffer
      (fun c => if c < 5 then (Windows.ERROR_BUFFER_OVERFLOW, 5)
        else (Windows.ERROR_SUCCESS, 0)) 2 1 = .ok () :=
  (windows_buffer_grow_retry_succeeds _ 1 5 0 rfl
    (by
      intro c hc
      simp [show ¬ c < 5 by omega])).2.2

/-- Counterexample to Claim C2: two distinct failing OS status codes
(invalid-parameter 87 and out-of-memory 8) reach the caller of the public
entry point ifaces as the very same generic error, so they are not
distinguishable there. -/
theorem windows_public_error_collapse :
    Windows.ERROR_INVALID_PARAMETER ≠ Windows.ERROR_NOT_ENOUGH_MEMORY ∧
    Windows.ifaces (fun _ => (Windows.ERROR_INVALID_PARAMETER, 0)) [] 1 =
      .error ⟨IoErrorKind.Other, "Oh, no ..."⟩ ∧
    Windows.ifaces (fun _ => (Windows.ERROR_NOT_ENOUGH_MEMORY, 0)) [] 1 =
      .error ⟨IoErrorKind.Other, "Oh, no ..."⟩ := by
  refine ⟨by decide, rfl, rfl⟩

/-- Claim C2 as amended: local_ifaces_with_buffer maps the five failing status
codes (address-not-associated 1228, invalid-parameter 87, out-of-memory 8,
no-data 232, and any other code) to five pairwise-distinct typed io errors --
distinct only by message for the pairs sharing an ErrorKind (1228 and 232 both
AddrNotAvailable; 8 and unknown both Other) -- but the public entry point
ifaces discards that error and returns the one generic error for every
failure, so the caller of ifaces cannot distinguish them. -/
theorem windows_error_mapping_amended :
    Windows.local_ifaces_with_buffer (fun _ => (1228, 0)) 1 0 =
        .error ⟨IoErrorKind.AddrNotAvailable,
          "An address has not yet been associated with the network endpoint."⟩ ∧
    Windows.local_ifaces_with_buffer (fun _ => (87, 0)) 1 0 =
        .error ⟨IoErrorKind.InvalidInput, "One of the parameters is invalid."⟩ ∧
    Windows.local_ifaces_with_buffer (fun _ => (8, 0)) 1 0 =
        .error ⟨IoErrorKind.Other,
          "Insufficient memory resources are available to complete the operation."⟩ ∧
    Windows.local_ifaces_with_buffer (fun _ => (232, 0)) 1 0 =
        .error ⟨IoErrorKind.AddrNotAvailable,
          "No addresses were found for the requested parameters."⟩ ∧
    Windows.local_ifaces_with_buffer (fun _ => (12345, 0)) 1 0 =
        .error ⟨IoErrorKind.Other, "Some Other Error Occured."⟩ ∧
    List.Pairwise (fun x y => x ≠ y)
      [(⟨IoErrorKind.AddrNotAvailable,
          "An address has not yet been associated with the network endpoint."⟩ :
            IoError),
       ⟨IoErrorKind.InvalidInput, "One of the parameters is invalid."⟩,
       ⟨IoErrorKind.Other,
          "Insufficient memory resources are available to complete the operation."⟩,
       ⟨IoErrorKind.AddrNotAvailable,
          "No addresses were found for the requested parameters."⟩,
       ⟨IoErrorKind.Other, "Some Other Error Occured."⟩] ∧
    Windows.ifaces (fun _ => (1228, 0)) [] 1 =
        .error ⟨IoErrorKind.Other, "Oh, no ..."⟩ ∧
    Windows.ifaces (fun _ => (87, 0)) [] 1 =
        .error ⟨IoErrorKind.Other, "Oh, no ..."⟩ ∧
    Windows.ifaces (fun _ => (8, 0)) [] 1 =
        .error ⟨IoErrorKind.Other, "Oh, no ..."⟩ ∧
    Windows.ifaces (fun _ => (232, 0)) [] 1 =
        .error ⟨IoErrorKind.Other, "Oh, no ..."⟩ ∧
    Windows.ifaces (fun _ => (12345, 0)) [] 1 =
        .error ⟨IoErrorKind.Other, "Oh, no ..."⟩ := by
  refine ⟨rfl, rfl, rfl, rfl, rfl, by decide, rfl, rfl, rfl, rfl, rfl⟩

/-- Claim C1 (refuted: the code diverges from it): the claim says the Unix
decoder turns the 16-byte IPv6 address array into eight 16-bit groups taken as
consecutive byte pairs with no swap.  The code instead zero-extends each of the
FIRST EIGHT bytes into a group (addr[i] as u16) and never reads bytes 8..15.
At the concrete record 2001:0db8::1 the decoder yields groups
(0x20, 0x01, 0x0d, 0xb8, 0, 0, 0, 0) while the byte-pair reading required by
the claim yields (0x2001, 0x0db8, 0, 0, 0, 0, 0, 1). -/
theorem unix_ipv6_decoder_drops_high_bytes :
    Unix.nix_socketaddr_to_sockaddr
        (some ⟨some Unix.AddressFamily.Inet6, 0, 0,
          [0x20, 0x01, 0x0d, 0xb8, 0, 0, 0, 0, 0, 0, 0, 0, 0, 0, 0, 1], 0⟩) =
      some (SocketAddr.V6 ⟨0x20, 0x01, 0x0d, 0xb8, 0, 0, 0, 0⟩ 0 0 0) ∧
    Unix.spec_ipv6_groups
        [0x20, 0x01, 0x0d, 0xb8, 0, 0, 0, 0, 0, 0, 0, 0, 0, 0, 0, 1] =
      ⟨0x2001, 0x0db8, 0, 0, 0, 0, 0, 1⟩ ∧
    (⟨0x20, 0x01, 0x0d, 0xb8, 0, 0, 0, 0⟩ : Ipv6Addr) ≠
      ⟨0x2001, 0x0db8, 0, 0, 0, 0, 0, 1⟩ := by
  refine ⟨rfl, rfl, by decide⟩
